import Mathlib

/-
  Verification of the typing-session state machine of the Typing Ninja
  Extended repository.

  The two engines are shallowly embedded:
  * the word-mode engine of `src/routes/+page.svelte` (state `GameState`,
    handler `onHandleUserInputKeyDown`), namespace `Word`;
  * the formatted-mode engine of the formatted route (state
    `FormattedGameState`, handlers `handleTabInput`, `handleCharacterInput`,
    `handleBackspace`), namespace `Fmt`;
  * the progress utilities of `src/lib/utils/progress.ts`, namespace
    `Progress`.

  Modelling conventions:
  * JS strings become `List Char`; `s[i]` (which may be `undefined`)
    becomes `List.get?`, and `Option Char` stands for char-or-undefined.
  * JS numbers holding counts become `Int` where the source never clamps
    (the word engine decrements without a guard), and `Int` with explicit
    `max 0` where the source clamps with `Math.max(0, _)`.
  * `Math.round(x)` on a non-negative rational num/den is
    `floor(num/den + 1/2)`, i.e. floor division `(2*num + den) / (2*den)`.
    Float rounding of the source is modelled by exact rational rounding.
  * The random text generator and the document store are external
    collaborators; the target text is a parameter of `initGame`.
  * UI-only fields (`recentKeys`, `isShowKeyboard`, `totalGenerateWords`,
    `isSyntaxHighlighted`) are omitted: no claim mentions them.
-/

namespace TypingNinja

/-- The session mode: fixed word count, or fixed duration. -/
inductive Mode where
  | words
  | time
deriving DecidableEq, Repr

/-- A keyboard event as the handlers branch on `e.key`: a single printable
character (`key.length === 1`), or one of the named keys. -/
inductive Key where
  | ch (c : Char)
  | backspace
  | tab
  | enter
deriving DecidableEq, Repr

/-- `Math.round(num/den)` for `den > 0`: `floor(num/den + 1/2)`,
computed as an integer division (for the positive denominators in use,
`/` on `Int` is floor division). -/
def jsRound (num den : Int) : Int :=
  (2 * num + den) / (2 * den)

/-- `Math.round(num/den)` for natural `num`, `den` with `den > 0`. -/
def jsRoundNat (num den : Nat) : Nat :=
  (2 * num + den) / (2 * den)

/-- `Math.round` on an exact rational: round half toward positive infinity. -/
def jsRoundQ (x : Rat) : Int :=
  Rat.floor (x + 1 / 2)

/-- JS string indexing `str[i]`: a character, or `undefined` past the end
(modelled as `none`). -/
def charAt (l : List Char) (i : Nat) : Option Char :=
  l.get? i

/-- JS array indexing `words[i]` for the word lists, whose elements are
only ever read at in-bounds positions in the flows the claims concern
(JS would yield `undefined`; the default `[]` stands for it). -/
def wordAt (l : List (List Char)) (i : Nat) : List Char :=
  l.getD i []

namespace Word

/-- The mutable state of the word-mode engine (`gameStates` of
`src/routes/+page.svelte`).  `currentText` and `userInput` are parallel
lists of words; `currentWordIndex` is the cursor. -/
structure GameState where
  currentText : List (List Char)
  currentWordIndex : Nat
  userInput : List (List Char)
  accuracy : Int
  wpm : Int
  correctChars : Int
  totalChars : Int
  timeElapsed : Int
  timeElapsedMode : Int
  mode : Mode
  isPlaying : Bool
  isFinish : Bool
  isPending : Bool
deriving DecidableEq, Repr

/-- `startGame`: flip the lifecycle flags (the interval it starts is the
timer side effect, modelled by `tick`). -/
def startGame (s : GameState) : GameState :=
  { s with isPending := false, isPlaying := true }

/-- `stopGame`: terminal flags; the word engine's `stopGame` clears the
timer and, in the custom-practice variant, hands the summary to the
external document store. -/
def stopGame (s : GameState) : GameState :=
  { s with isPlaying := false, isFinish := true, isPending := false }

/-- `updateWPM` of the word engine:
`minutes = (timeElapsedMode - timeElapsed)/60` in time mode, else
`timeElapsed/60`; `wpm = minutes > 0 ? Math.round((correctChars/5)/minutes) : 0`.
Over exact rationals, `(correctChars/5) / (secs/60) = 60*correctChars / (5*secs)`,
and `minutes > 0` is `secs > 0`; the equivalence with the rational-valued
formula is proved below (`wpmSpec`). -/
def updateWPM (mode : Mode) (timeElapsedMode timeElapsed correctChars : Int) : Int :=
  let secs : Int :=
    match mode with
    | Mode.time => timeElapsedMode - timeElapsed
    | Mode.words => timeElapsed
  if 0 < secs then jsRound (60 * correctChars) (5 * secs) else 0

/-- `updateAccuracy` of the word engine:
`Math.round((correctChars / totalChars) * 100) || 100`.
With `totalChars = 0` the engine only ever has `correctChars = 0`, where
the JS expression is `NaN || 100 = 100`; and whenever the rounded value
is `0` the `|| 100` turns it into `100`. -/
def updateAccuracy (correctChars totalChars : Int) : Int :=
  if totalChars = 0 then 100
  else if jsRound (correctChars * 100) totalChars = 0 then 100
  else jsRound (correctChars * 100) totalChars

/-- Recompute the `accuracy` field from the counts (tail of the handler). -/
def updateAccuracyState (s : GameState) : GameState :=
  { s with accuracy := updateAccuracy s.correctChars s.totalChars }

/-- The `key === ' '` branch of `onHandleUserInputKeyDown`. -/
def spaceKey (s : GameState) : GameState :=
  if s.currentWordIndex < s.currentText.length - 1 then
    { s with currentWordIndex := s.currentWordIndex + 1 }
  else if s.mode = Mode.words then stopGame s
  else s

/-- The `key.length === 1` branch (a printable character other than space):
append to the current word's input, bump `totalChars`, in words mode stop
when the last word's input reaches the target word's length, then count the
keystroke correct when it matches the target word at its offset.
The source writes the completion test as
`currentWordIndex === userInput.length - 1`; it is encoded as
`currentWordIndex + 1 = userInput.length` to keep the JS meaning when
`userInput.length = 0` (JS compares against `-1` there, never `0`). -/
def insertChar (c : Char) (s : GameState) : GameState :=
  let currentWord := wordAt s.currentText s.currentWordIndex
  let currentInput := wordAt s.userInput s.currentWordIndex ++ [c]
  let s1 := { s with userInput := s.userInput.set s.currentWordIndex currentInput,
                     totalChars := s.totalChars + 1 }
  let s2 := if s1.mode = Mode.words ∧ s1.currentWordIndex + 1 = s1.userInput.length ∧
               (wordAt s1.currentText s1.currentWordIndex).length =
               (wordAt s1.userInput (s1.userInput.length - 1)).length
            then stopGame s1 else s1
  if currentInput.length ≤ currentWord.length ∧
     some c = charAt currentWord (currentInput.length - 1)
  then { s2 with correctChars := s2.correctChars + 1 } else s2

/-- The `key === 'Backspace'` branch: drop the last character of the
current word's input (decrementing `correctChars` exactly when that
character had matched), or step the cursor back one word when the current
input is empty. -/
def backspaceKey (s : GameState) : GameState :=
  let currentWord := wordAt s.currentText s.currentWordIndex
  let currentInput := wordAt s.userInput s.currentWordIndex
  if 0 < currentInput.length then
    let lastChar := currentInput.getLast?
    let expectedChar := charAt currentWord (currentInput.length - 1)
    let s1 := { s with userInput := s.userInput.set s.currentWordIndex currentInput.dropLast,
                       totalChars := s.totalChars - 1 }
    if lastChar = expectedChar then { s1 with correctChars := s1.correctChars - 1 } else s1
  else if 0 < s.currentWordIndex then
    { s with currentWordIndex := s.currentWordIndex - 1 }
  else s

/-- `onHandleUserInputKeyDown` of the word-mode engine: a key while
pending starts the session; keys while not playing are dropped; then the
space / printable / backspace branches run, and `updateAccuracy` always
runs at the end (Tab and Enter match no branch in this engine). -/
def onHandleUserInputKeyDown (key : Key) (s0 : GameState) : GameState :=
  let s := if !s0.isPlaying && s0.isPending then startGame s0 else s0
  if !s.isPlaying then s
  else
    updateAccuracyState (match key with
      | Key.ch c => if c = ' ' then spaceKey s else insertChar c s
      | Key.backspace => backspaceKey s
      | Key.tab => s
      | Key.enter => s)

/-- `initGame` of the word engine, with the generated or custom word list
supplied as a parameter (`generateRandomText` is an external data lookup).
Words mode starts the clock at 0; time mode preloads `timeElapsedMode`. -/
def initGame (currentText : List (List Char)) (mode : Mode)
    (timeElapsedMode : Int) : GameState :=
  { currentText := currentText
    currentWordIndex := 0
    userInput := currentText.map (fun _ => [])
    accuracy := 100
    wpm := 0
    correctChars := 0
    totalChars := 0
    timeElapsed := (match mode with | Mode.words => 0 | Mode.time => timeElapsedMode)
    timeElapsedMode := timeElapsedMode
    mode := mode
    isPlaying := false
    isFinish := false
    isPending := true }

/-- One firing of the 1-second interval started by `startGame` (the
interval exists exactly while playing), followed by the `$effect` that
stops a time-mode session when the countdown hits 0. -/
def tick (s : GameState) : GameState :=
  if s.isPlaying then
    let s1 := (match s.mode with
      | Mode.time => { s with timeElapsed := s.timeElapsed - 1 }
      | Mode.words => { s with timeElapsed := s.timeElapsed + 1 })
    let s2 := { s1 with
      wpm := updateWPM s1.mode s1.timeElapsedMode s1.timeElapsed s1.correctChars }
    if s2.mode = Mode.time ∧ s2.timeElapsed = 0 ∧ s2.isPlaying then stopGame s2 else s2
  else s

end Word

namespace Fmt

/-- The mutable state of the formatted-mode engine (`gameStates` of the
formatted route).  `currentText` is one character stream preserving
whitespace; `currentCharIndex` is the cursor; `userInput` is one
accumulated typed string. -/
structure FormattedGameState where
  currentText : List Char
  currentCharIndex : Nat
  userInput : List Char
  accuracy : Int
  wpm : Int
  correctChars : Int
  totalChars : Int
  timeElapsed : Int
  timeElapsedMode : Int
  mode : Mode
  isPlaying : Bool
  isFinish : Bool
  isPending : Bool
deriving DecidableEq, Repr

/-- `updateWPM` of the formatted engine (same arithmetic as the word
engine, written as the source's two-armed `if` on the mode). -/
def updateWPM (mode : Mode) (timeElapsedMode timeElapsed correctChars : Int) : Int :=
  if mode = Mode.time then
    let t : Int := timeElapsedMode - timeElapsed
    if 0 < t then jsRound (60 * correctChars) (5 * t) else 0
  else
    let t : Int := timeElapsed
    if 0 < t then jsRound (60 * correctChars) (5 * t) else 0

/-- `updateAccuracy` of the formatted engine:
`totalChars > 0 ? Math.round((correctChars / totalChars) * 100) : 100`. -/
def updateAccuracy (correctChars totalChars : Int) : Int :=
  if 0 < totalChars then jsRound (correctChars * 100) totalChars else 100

/-- `startGame` of the formatted engine: note it sets
`timeElapsed := timeElapsedMode` unconditionally, in words mode too. -/
def startGame (s : FormattedGameState) : FormattedGameState :=
  { s with isPlaying := true, isPending := false, timeElapsed := s.timeElapsedMode }

/-- `stopGame` of the formatted engine: terminal flags, then a final
`updateWPM` (the performance save goes to the external document store). -/
def stopGame (s : FormattedGameState) : FormattedGameState :=
  let s1 := { s with isPlaying := false, isFinish := true }
  { s1 with wpm := updateWPM s1.mode s1.timeElapsedMode s1.timeElapsed s1.correctChars }

/-- The source's trailing-space count: walk `userInput` from its end while
the character is a space. -/
def countTrailingSpaces (l : List Char) : Nat :=
  (l.reverse.takeWhile (fun ch => ch = ' ')).length

/-- `handleCharacterInput`: append the character and bump `totalChars`;
a direct match advances the cursor and is correct; a space against an
expected tab is correct and advances only on the 4th trailing space
(more than 4 trailing spaces: neither branch of the source fires, so the
keystroke is incorrect and the cursor holds); any other mismatch advances
the cursor without credit.  Reaching the end of the text stops the game. -/
def handleCharacterInput (inputChar : Char) (s : FormattedGameState) :
    FormattedGameState :=
  let expectedChar := charAt s.currentText s.currentCharIndex
  let userInput := s.userInput ++ [inputChar]
  let res : Bool × Nat :=
    if some inputChar = expectedChar then (true, s.currentCharIndex + 1)
    else if expectedChar = some '\t' ∧ inputChar = ' ' then
      let trailingSpaces := countTrailingSpaces userInput
      if trailingSpaces = 4 then (true, s.currentCharIndex + 1)
      else if trailingSpaces < 4 then (true, s.currentCharIndex)
      else (false, s.currentCharIndex)
    else (false, s.currentCharIndex + 1)
  let s1 := { s with userInput := userInput
                     totalChars := s.totalChars + 1
                     currentCharIndex := res.2
                     correctChars := if res.1 then s.correctChars + 1 else s.correctChars }
  if s1.currentText.length ≤ s1.currentCharIndex then stopGame s1 else s1

/-- `handleTabInput`: against an expected tab, a Tab press writes 4 spaces
and counts 4 correct characters while advancing the cursor by one target
position; otherwise it is processed as four space inputs.  Then the
end-of-text check runs again. -/
def handleTabInput (s : FormattedGameState) : FormattedGameState :=
  let expectedChar := charAt s.currentText s.currentCharIndex
  let s1 :=
    if expectedChar = some '\t' then
      { s with userInput := s.userInput ++ [' ', ' ', ' ', ' ']
               totalChars := s.totalChars + 4
               correctChars := s.correctChars + 4
               currentCharIndex := s.currentCharIndex + 1 }
    else
      handleCharacterInput ' ' (handleCharacterInput ' '
        (handleCharacterInput ' ' (handleCharacterInput ' ' s)))
  if s1.currentText.length ≤ s1.currentCharIndex then stopGame s1 else s1

/-- `handleBackspace`: drop the last typed character and clamp
`totalChars` down by one.  Removed spaces distinguish: still filling an
expected tab (hold the cursor), just-broken completed tab (3 trailing
spaces remain behind a previous tab), or a regular space; other characters
take the regular branch.  The source's `previousExpectedChar` is the empty
string when the cursor is at 0, which no character equals, modelled as
`none`. -/
def handleBackspace (s : FormattedGameState) : FormattedGameState :=
  if 0 < s.userInput.length then
    let removedChar := s.userInput.getLast?
    let userInput := s.userInput.dropLast
    let currentExpectedChar := charAt s.currentText s.currentCharIndex
    let previousExpectedChar : Option Char :=
      if 0 < s.currentCharIndex then charAt s.currentText (s.currentCharIndex - 1)
      else none
    let s1 := { s with userInput := userInput, totalChars := max 0 (s.totalChars - 1) }
    if removedChar = some ' ' then
      let trailingSpaces := countTrailingSpaces userInput
      if currentExpectedChar = some '\t' then
        { s1 with correctChars := max 0 (s1.correctChars - 1) }
      else if previousExpectedChar = some '\t' ∧ trailingSpaces = 3 then
        { s1 with correctChars := max 0 (s1.correctChars - 1)
                  currentCharIndex := s1.currentCharIndex - 1 }
      else
        { s1 with correctChars := if removedChar = previousExpectedChar
                    then max 0 (s1.correctChars - 1) else s1.correctChars
                  currentCharIndex := s1.currentCharIndex - 1 }
    else
      { s1 with correctChars := if removedChar = previousExpectedChar
                  then max 0 (s1.correctChars - 1) else s1.correctChars
                currentCharIndex := s1.currentCharIndex - 1 }
  else s

/-- Recompute the `accuracy` field from the counts (tail of the handler). -/
def updateAccuracyState (s : FormattedGameState) : FormattedGameState :=
  { s with accuracy := updateAccuracy s.correctChars s.totalChars }

/-- `onHandleUserInputKeyDown` of the formatted engine: a key while
pending starts the session; keys while not playing are dropped; Tab,
Enter (as `'\n'`), printable characters and Backspace dispatch to their
handlers; `updateAccuracy` always runs at the end. -/
def onHandleUserInputKeyDown (key : Key) (s0 : FormattedGameState) :
    FormattedGameState :=
  let s := if !s0.isPlaying && s0.isPending then startGame s0 else s0
  if !s.isPlaying then s
  else
    updateAccuracyState (match key with
      | Key.tab => handleTabInput s
      | Key.enter => handleCharacterInput '\n' s
      | Key.ch c => handleCharacterInput c s
      | Key.backspace => handleBackspace s)

/-- `initGame` of the formatted engine, with the sample or custom text
supplied as a parameter.  It resets `timeElapsed` to 0 in every mode. -/
def initGame (currentText : List Char) (mode : Mode)
    (timeElapsedMode : Int) : FormattedGameState :=
  { currentText := currentText
    currentCharIndex := 0
    userInput := []
    accuracy := 100
    wpm := 0
    correctChars := 0
    totalChars := 0
    timeElapsed := 0
    timeElapsedMode := timeElapsedMode
    mode := mode
    isPlaying := false
    isFinish := false
    isPending := true }

/-- One firing of the interval installed by the formatted `startGame`:
time mode counts down and stops at `timeElapsed <= 0`; words mode counts
up; both recompute the WPM. -/
def tick (s : FormattedGameState) : FormattedGameState :=
  if s.isPlaying then
    if s.mode = Mode.time then
      let s1 := { s with timeElapsed := s.timeElapsed - 1 }
      let s2 := { s1 with
        wpm := updateWPM s1.mode s1.timeElapsedMode s1.timeElapsed s1.correctChars }
      if s2.timeElapsed ≤ 0 then stopGame s2 else s2
    else
      let s1 := { s with timeElapsed := s.timeElapsed + 1 }
      { s1 with
        wpm := updateWPM s1.mode s1.timeElapsedMode s1.timeElapsed s1.correctChars }
  else s

end Fmt

namespace Progress

/-- Status bucket of `src/lib/utils/progress.ts`. -/
inductive Status where
  | start
  | low
  | medium
  | high
  | complete
deriving DecidableEq, Repr

/-- The result record of `calculateTypingProgress`.  The one-decimal
`progressPercentage` is carried exactly, in tenths of a percent
(`progressPct10 = 800` is `80.0`). -/
structure TypingProgressData where
  progressPct10 : Nat
  wordsCompleted : Nat
  totalWords : Nat
  correctChars : Nat
  totalChars : Nat
  accuracy : Nat
  status : Status
deriving DecidableEq, Repr

/-- Per-word inner loop: matching characters at equal offsets, up to the
shorter of target word and typed input. -/
def matchCount : List Char → List Char → Nat
  | w :: ws, i :: is => (if w = i then 1 else 0) + matchCount ws is
  | _, _ => 0

/-- The word-analysis loop of `calculateTypingProgress`, walking the words
with their index and returning
`(correctChars, wordsCompleted, totalTypedChars)`: words before the cursor
contribute matches and (when fully and correctly typed) a completed word;
the cursor word contributes matches; later words contribute nothing but
their typed length. -/
def progressScan (userInput : List (List Char)) (currentWordIndex : Nat) :
    Nat → List (List Char) → Nat × Nat × Nat
  | _, [] => (0, 0, 0)
  | wordIndex, word :: rest =>
    let input := wordAt userInput wordIndex
    let tail := progressScan userInput currentWordIndex (wordIndex + 1) rest
    let wordCorrectChars := matchCount word input
    if wordIndex < currentWordIndex then
      (wordCorrectChars + tail.1,
       (if word.length ≤ input.length ∧ wordCorrectChars = word.length then 1 else 0)
         + tail.2.1,
       input.length + tail.2.2)
    else if wordIndex = currentWordIndex then
      (wordCorrectChars + tail.1, tail.2.1, input.length + tail.2.2)
    else
      (tail.1, tail.2.1, input.length + tail.2.2)

/-- `getProgressStatus`: bucket a percentage given in tenths. -/
def getProgressStatus (progressPct10 : Nat) : Status :=
  if 1000 ≤ progressPct10 then Status.complete
  else if 750 ≤ progressPct10 then Status.high
  else if 500 ≤ progressPct10 then Status.medium
  else if 250 ≤ progressPct10 then Status.low
  else Status.start

/-- `calculateTypingProgress` of `src/lib/utils/progress.ts`.
Empty text short-circuits; otherwise the word loop produces the counts,
`progressPercentage = Math.round((correctChars/totalChars)*1000)/10`
(0 when `totalChars` is 0), accuracy rounds against the typed total
(100 when nothing is typed), and the status buckets are the source's
inline thresholds (identical to `getProgressStatus`). -/
def calculateTypingProgress (currentText userInput : List (List Char))
    (currentWordIndex : Nat) : TypingProgressData :=
  if currentText.length = 0 then
    { progressPct10 := 0, wordsCompleted := 0, totalWords := 0,
      correctChars := 0, totalChars := 0, accuracy := 100, status := Status.start }
  else
    let totalChars := (currentText.map List.length).sum
    let totalWords := currentText.length
    let scan := progressScan userInput currentWordIndex 0 currentText
    let correctChars := scan.1
    let wordsCompleted := scan.2.1
    let totalTypedChars := scan.2.2
    let progressPct10 :=
      if 0 < totalChars then jsRoundNat (correctChars * 1000) totalChars else 0
    let accuracy :=
      if 0 < totalTypedChars then jsRoundNat (correctChars * 100) totalTypedChars
      else 100
    let status :=
      if 1000 ≤ progressPct10 then Status.complete
      else if 750 ≤ progressPct10 then Status.high
      else if 500 ≤ progressPct10 then Status.medium
      else if 250 ≤ progressPct10 then Status.low
      else Status.start
    { progressPct10 := progressPct10, wordsCompleted := wordsCompleted,
      totalWords := totalWords, correctChars := correctChars,
      totalChars := totalChars, accuracy := accuracy, status := status }

end Progress

/-! ## The spec's rational-valued WPM formula -/

/-- The elapsed seconds both engines derive before dividing by 60:
`timeElapsedMode - timeElapsed` while counting down in time mode, and
`timeElapsed` while counting up in words mode. -/
def elapsedSeconds (mode : Mode) (timeElapsedMode timeElapsed : Int) : Int :=
  match mode with
  | Mode.time => timeElapsedMode - timeElapsed
  | Mode.words => timeElapsed

/-- Modelled from the spec's words (for comparison with the engines'
`updateWPM`): `wpm(correctChars, elapsedMinutes) = round((correctChars / 5)
/ elapsedMinutes)`, and `0` when `elapsedMinutes ≤ 0`. -/
def wpmSpec (correctChars : Int) (elapsedMinutes : Rat) : Int :=
  if 0 < elapsedMinutes then jsRoundQ ((correctChars : Rat) / 5 / elapsedMinutes)
  else 0

/-! ## Auxiliary lemmas -/

theorem List.getD_set_self {α : Type} (l : List α) (i : Nat) (a d : α)
    (h : i < l.length) : (l.set i a).getD i d = a := by
  induction l generalizing i with
  | nil => simp at h
  | cons x xs ih =>
    cases i with
    | zero => rfl
    | succ n => simpa using ih n (by simpa using h)

theorem List.set_getD_self {α : Type} (l : List α) (i : Nat) (d : α)
    (h : i < l.length) : l.set i (l.getD i d) = l := by
  induction l generalizing i with
  | nil => rfl
  | cons x xs ih =>
    cases i with
    | zero => rfl
    | succ n => simpa using ih n (by simpa using h)

theorem Fmt.countTrailingSpaces_concat (l : List Char) (c : Char) :
    Fmt.countTrailingSpaces (l ++ [c]) =
      if c = ' ' then Fmt.countTrailingSpaces l + 1 else 0 := by
  simp only [Fmt.countTrailingSpaces, List.reverse_append, List.reverse_cons,
    List.reverse_nil, List.nil_append, List.cons_append, List.takeWhile_cons]
  by_cases h : c = ' ' <;> simp [h, Nat.add_comm]

theorem ratFloor_eq_intFloor (q : Rat) : Rat.floor q = Int.floor q :=
  (Rat.floor_def' q).trans Rat.floor_def.symm

theorem jsRoundQ_div_eq (num den : Int) (h : 0 < den) :
    jsRoundQ ((num : Rat) / (den : Rat)) = jsRound num den := by
  have hd : (den : Rat) ≠ 0 := Int.cast_ne_zero.mpr (by omega)
  have hq : (num : Rat) / (den : Rat) + 1 / 2
      = ((2 * num + den : Int) : Rat) / ((2 * den : Int) : Rat) := by
    push_cast
    field_simp
    ring
  rw [jsRoundQ, hq, ratFloor_eq_intFloor]
  obtain ⟨b, hb⟩ : ∃ b : Nat, (2 * den) = (b : Int) :=
    ⟨(2 * den).toNat, (Int.toNat_of_nonneg (by omega)).symm⟩
  rw [jsRound, hb, Int.cast_natCast, Rat.floor_intCast_div_natCast]

theorem wordAt_set_self (l : List (List Char)) (i : Nat) (v : List Char)
    (h : i < l.length) : wordAt (l.set i v) i = v :=
  List.getD_set_self l i v [] h

theorem set_wordAt_self (l : List (List Char)) (i : Nat)
    (h : i < l.length) : l.set i (wordAt l i) = l :=
  List.set_getD_self l i [] h

theorem lt_of_charAt_eq_some {w : List Char} {i : Nat} {c : Char}
    (h : charAt w i = some c) : i < w.length := by
  obtain ⟨h', -⟩ := List.get?_eq_some.mp h
  exact h'

/-! ## Claims -/

/-- C1: the claim says that in both engines, after every key-event
transition, accuracy is `round(correctChars / totalChars * 100)` when
`totalChars > 0` — in particular `0` whenever `correctChars = 0` and
`totalChars > 0`.  The word engine violates this: its
`Math.round(...) || 100` maps a rounded accuracy of `0` to `100`.
Evaluating the code at the failing input — fresh words-mode session on
the single word `"ab"`, first key `'x'` — gives `correctChars = 0`,
`totalChars = 1`, but `accuracy = 100`.  The formatted engine's
`updateAccuracy` returns `0` there, as the claim states. -/
theorem claim1_word_accuracy_falsy_bug :
    (Word.onHandleUserInputKeyDown (Key.ch 'x')
        (Word.initGame [['a', 'b']] Mode.words 15)).correctChars = 0 ∧
    (Word.onHandleUserInputKeyDown (Key.ch 'x')
        (Word.initGame [['a', 'b']] Mode.words 15)).totalChars = 1 ∧
    (Word.onHandleUserInputKeyDown (Key.ch 'x')
        (Word.initGame [['a', 'b']] Mode.words 15)).accuracy = 100 ∧
    Fmt.updateAccuracy 0 1 = 0 := by decide

/-- C2: the claim says `0 ≤ correctChars ≤ totalChars` in every state
reachable by key events and ticks, in both engines.  The formatted engine
violates it: from a fresh session on the target `"\t\tx"`, the key
sequence Tab, Tab, Backspace reaches `correctChars = 8 > 7 = totalChars`
(the backspace decrements `totalChars` but its space-removal analysis
finds 7 trailing spaces, matches no tab-undo branch, and leaves
`correctChars` untouched). -/
theorem claim2_formatted_correct_exceeds_total :
    (Fmt.onHandleUserInputKeyDown Key.backspace
      (Fmt.onHandleUserInputKeyDown Key.tab
        (Fmt.onHandleUserInputKeyDown Key.tab
          (Fmt.initGame ['\t', '\t', 'x'] Mode.words 15)))).correctChars = 8 ∧
    (Fmt.onHandleUserInputKeyDown Key.backspace
      (Fmt.onHandleUserInputKeyDown Key.tab
        (Fmt.onHandleUserInputKeyDown Key.tab
          (Fmt.initGame ['\t', '\t', 'x'] Mode.words 15)))).totalChars = 7 := by
  decide

/-- Feed a key sequence to the formatted engine's handler. -/
def Fmt.run (keys : List Key) (s : Fmt.FormattedGameState) :
    Fmt.FormattedGameState :=
  keys.foldl (fun s k => Fmt.onHandleUserInputKeyDown k s) s

/-- The observation triple of the tab-equivalence property. -/
def Fmt.countsAndCursor (s : Fmt.FormattedGameState) : Int × Int × Nat :=
  (s.correctChars, s.totalChars, s.currentCharIndex)

/-- C4: formatted-mode tab equivalence.  With target text `"a\tb"`,
starting from a fresh session, the key sequence `'a'`, Tab, `'b'` yields
the same final `(correctChars, totalChars, cursor)` — here `(6, 6, 3)`,
with the session finished — as the key sequence `'a'`, four spaces,
`'b'`. -/
theorem claim4_formatted_tab_equivalence :
    Fmt.countsAndCursor
        (Fmt.run [Key.ch 'a', Key.tab, Key.ch 'b']
          (Fmt.initGame ['a', '\t', 'b'] Mode.words 15))
      = Fmt.countsAndCursor
        (Fmt.run [Key.ch 'a', Key.ch ' ', Key.ch ' ', Key.ch ' ', Key.ch ' ',
            Key.ch 'b']
          (Fmt.initGame ['a', '\t', 'b'] Mode.words 15)) ∧
    Fmt.countsAndCursor
        (Fmt.run [Key.ch 'a', Key.tab, Key.ch 'b']
          (Fmt.initGame ['a', '\t', 'b'] Mode.words 15)) = (6, 6, 3) ∧
    (Fmt.run [Key.ch 'a', Key.tab, Key.ch 'b']
        (Fmt.initGame ['a', '\t', 'b'] Mode.words 15)).isFinish = true := by
  decide

/-- C6 counterexample: the claim says a space on the last word finishes
the session in time mode as well as in words mode.  The code guards the
finish with `mode === 'words'`: in a time-mode session on the single word
`"ab"`, a space keypress leaves the session playing, not finished. -/
theorem claim6_counterexample_time_mode_space :
    (Word.onHandleUserInputKeyDown (Key.ch ' ')
        (Word.initGame [['a', 'b']] Mode.time 15)).isPlaying = true ∧
    (Word.onHandleUserInputKeyDown (Key.ch ' ')
        (Word.initGame [['a', 'b']] Mode.time 15)).isFinish = false := by
  decide

/-- C7: the claim says that at the moment the first key event switches
the phase to playing, `elapsedSeconds` is `0` in words mode (counting up)
in both engines.  The formatted engine's `startGame` sets
`timeElapsed := timeElapsedMode` unconditionally: after the first key of
a fresh words-mode formatted session (preset 15), the clock reads 15 and
the next tick moves it up to 16.  The word engine behaves as claimed
(clock 0 after the first key). -/
theorem claim7_formatted_words_clock_starts_at_preset :
    (Fmt.onHandleUserInputKeyDown (Key.ch 'a')
        (Fmt.initGame ['a', 'b', 'c'] Mode.words 15)).isPlaying = true ∧
    (Fmt.onHandleUserInputKeyDown (Key.ch 'a')
        (Fmt.initGame ['a', 'b', 'c'] Mode.words 15)).timeElapsed = 15 ∧
    (Fmt.tick (Fmt.onHandleUserInputKeyDown (Key.ch 'a')
        (Fmt.initGame ['a', 'b', 'c'] Mode.words 15))).timeElapsed = 16 ∧
    (Word.onHandleUserInputKeyDown (Key.ch 'a')
        (Word.initGame [['a', 'b', 'c']] Mode.words 15)).timeElapsed = 0 ∧
    (Word.onHandleUserInputKeyDown (Key.ch 'a')
        (Word.initGame [['a', 'b', 'c']] Mode.time 15)).timeElapsed = 15 := by
  decide

/-- C5: word-mode last-word completion.  While playing in words mode with
the cursor on the last word, typing any printable character that makes
that word's input length equal the target word's length finishes the
session — the code compares lengths only, so this holds for arbitrary
(possibly wrong) input characters. -/
theorem claim5_last_word_length_completion
    (s : Word.GameState) (c : Char)
    (hplay : s.isPlaying = true)
    (hmode : s.mode = Mode.words)
    (hc : c ≠ ' ')
    (hlen : s.userInput.length = s.currentText.length)
    (hlast : s.currentWordIndex + 1 = s.currentText.length)
    (hfill : (wordAt s.userInput s.currentWordIndex).length + 1
        = (wordAt s.currentText s.currentWordIndex).length) :
    (Word.onHandleUserInputKeyDown (Key.ch c) s).isFinish = true ∧
    (Word.onHandleUserInputKeyDown (Key.ch c) s).isPlaying = false := by
  have hidx : s.currentWordIndex < s.userInput.length := by omega
  suffices h : (Word.insertChar c s).isFinish = true ∧
      (Word.insertChar c s).isPlaying = false by
    simpa [Word.onHandleUserInputKeyDown, hplay, hc,
      Word.updateAccuracyState] using h
  simp only [Word.insertChar]
  split_ifs with h1 h2 h3 <;>
    first
      | (simp [Word.stopGame]; done)
      | (exfalso
         first
           | apply h2
           | apply h3
         refine ⟨hmode, by simp only [List.length_set]; omega, ?_⟩
         simp only [List.length_set]
         have hl : s.userInput.length - 1 = s.currentWordIndex := by omega
         rw [hl, wordAt_set_self _ _ _ hidx]
         simp only [List.length_append, List.length_singleton]
         omega)

/-- C5 witness: a words-mode playing session on the single word `"ab"`
whose current input is the wrong character `"x"`; typing the (also wrong)
character `'z'` completes the length and finishes the session. -/
theorem claim5_last_word_length_completion_witness :
    (Word.onHandleUserInputKeyDown (Key.ch 'z')
        { currentText := [['a', 'b']], currentWordIndex := 0,
          userInput := [['x']], accuracy := 100, wpm := 0,
          correctChars := 0, totalChars := 1, timeElapsed := 0,
          timeElapsedMode := 15, mode := Mode.words, isPlaying := true,
          isFinish := false, isPending := false }).isFinish = true ∧
    (Word.onHandleUserInputKeyDown (Key.ch 'z')
        { currentText := [['a', 'b']], currentWordIndex := 0,
          userInput := [['x']], accuracy := 100, wpm := 0,
          correctChars := 0, totalChars := 1, timeElapsed := 0,
          timeElapsedMode := 15, mode := Mode.words, isPlaying := true,
          isFinish := false, isPending := false }).isPlaying = false :=
  claim5_last_word_length_completion _ 'z' rfl rfl (by decide) (by decide)
    (by decide) (by decide)

/-- C10: formatted-mode backspace on empty input.  For every playing
state whose `userInput` is empty, the backspace transition leaves
`userInput`, `totalChars`, `correctChars`, `cursor` and the phase flags
unchanged. -/
theorem claim10_backspace_empty_noop
    (s : Fmt.FormattedGameState)
    (hplay : s.isPlaying = true)
    (hempty : s.userInput = []) :
    (Fmt.onHandleUserInputKeyDown Key.backspace s).userInput = s.userInput ∧
    (Fmt.onHandleUserInputKeyDown Key.backspace s).totalChars = s.totalChars ∧
    (Fmt.onHandleUserInputKeyDown Key.backspace s).correctChars = s.correctChars ∧
    (Fmt.onHandleUserInputKeyDown Key.backspace s).currentCharIndex
      = s.currentCharIndex ∧
    (Fmt.onHandleUserInputKeyDown Key.backspace s).isPlaying = s.isPlaying ∧
    (Fmt.onHandleUserInputKeyDown Key.backspace s).isFinish = s.isFinish ∧
    (Fmt.onHandleUserInputKeyDown Key.backspace s).isPending = s.isPending := by
  simp [Fmt.onHandleUserInputKeyDown, hplay, Fmt.handleBackspace, hempty,
    Fmt.updateAccuracyState]

/-- C10 witness: the no-op at a concrete playing state with empty input. -/
theorem claim10_backspace_empty_noop_witness :
    (Fmt.onHandleUserInputKeyDown Key.backspace
        { currentText := ['a', 'b'], currentCharIndex := 0, userInput := [],
          accuracy := 100, wpm := 0, correctChars := 0, totalChars := 0,
          timeElapsed := 15, timeElapsedMode := 15, mode := Mode.words,
          isPlaying := true, isFinish := false,
          isPending := false }).totalChars = 0 ∧
    (Fmt.onHandleUserInputKeyDown Key.backspace
        { currentText := ['a', 'b'], currentCharIndex := 0, userInput := [],
          accuracy := 100, wpm := 0, correctChars := 0, totalChars := 0,
          timeElapsed := 15, timeElapsedMode := 15, mode := Mode.words,
          isPlaying := true, isFinish := false,
          isPending := false }).isPlaying = true :=
  ⟨((claim10_backspace_empty_noop _ rfl rfl).2.1).trans rfl,
   ((claim10_backspace_empty_noop _ rfl rfl).2.2.2.2.1).trans rfl⟩

/-- C6 (amended): while playing, a space on a non-last word only
increments the cursor, with no count changes, in both modes; a space on
the last word transitions to finished in words mode only — in time mode
it leaves the session state unchanged (apart from the accuracy
recomputation), contrary to the claim's "the same rule applies". -/
theorem claim6_amended_space_semantics
    (s : Word.GameState) (hplay : s.isPlaying = true) :
    (s.currentWordIndex < s.currentText.length - 1 →
      (Word.onHandleUserInputKeyDown (Key.ch ' ') s).currentWordIndex
          = s.currentWordIndex + 1 ∧
      (Word.onHandleUserInputKeyDown (Key.ch ' ') s).userInput = s.userInput ∧
      (Word.onHandleUserInputKeyDown (Key.ch ' ') s).totalChars = s.totalChars ∧
      (Word.onHandleUserInputKeyDown (Key.ch ' ') s).correctChars
          = s.correctChars ∧
      (Word.onHandleUserInputKeyDown (Key.ch ' ') s).isPlaying = true ∧
      (Word.onHandleUserInputKeyDown (Key.ch ' ') s).isFinish = s.isFinish) ∧
    (¬ s.currentWordIndex < s.currentText.length - 1 → s.mode = Mode.words →
      (Word.onHandleUserInputKeyDown (Key.ch ' ') s).isFinish = true ∧
      (Word.onHandleUserInputKeyDown (Key.ch ' ') s).isPlaying = false) ∧
    (¬ s.currentWordIndex < s.currentText.length - 1 → s.mode = Mode.time →
      (Word.onHandleUserInputKeyDown (Key.ch ' ') s).currentWordIndex
          = s.currentWordIndex ∧
      (Word.onHandleUserInputKeyDown (Key.ch ' ') s).userInput = s.userInput ∧
      (Word.onHandleUserInputKeyDown (Key.ch ' ') s).totalChars = s.totalChars ∧
      (Word.onHandleUserInputKeyDown (Key.ch ' ') s).correctChars
          = s.correctChars ∧
      (Word.onHandleUserInputKeyDown (Key.ch ' ') s).isPlaying = true ∧
      (Word.onHandleUserInputKeyDown (Key.ch ' ') s).isFinish = s.isFinish) := by
  refine ⟨fun hlt => ?_, fun hge hw => ?_, fun hge ht => ?_⟩ <;>
    simp [Word.onHandleUserInputKeyDown, hplay, Word.spaceKey,
      Word.updateAccuracyState, Word.stopGame, *]

/-- C6 amended witness: a words-mode space on the last word finishes the
session at a concrete playing state. -/
theorem claim6_amended_space_semantics_witness :
    (Word.onHandleUserInputKeyDown (Key.ch ' ')
        { currentText := [['a', 'b']], currentWordIndex := 0,
          userInput := [['a']], accuracy := 100, wpm := 0,
          correctChars := 1, totalChars := 1, timeElapsed := 0,
          timeElapsedMode := 15, mode := Mode.words, isPlaying := true,
          isFinish := false, isPending := false }).isFinish = true ∧
    (Word.onHandleUserInputKeyDown (Key.ch ' ')
        { currentText := [['a', 'b']], currentWordIndex := 0,
          userInput := [['a']], accuracy := 100, wpm := 0,
          correctChars := 1, totalChars := 1, timeElapsed := 0,
          timeElapsedMode := 15, mode := Mode.words, isPlaying := true,
          isFinish := false, isPending := false }).isPlaying = false :=
  (claim6_amended_space_semantics _ rfl).2.1 (by decide) rfl

/-- C9: WPM calculation.  Both engines' `updateWPM` agree with the spec's
formula `round((correctChars / 5) / elapsedMinutes)` over exact rationals
(`wpmSpec`), returning `0` when the elapsed minutes are not positive; in
particular 250 correct characters in one minute give 50 WPM (shown for a
words-mode count-up and a time-mode count-down), and zero elapsed time
gives 0. -/
theorem claim9_wpm_formula :
    (∀ (mode : Mode) (timeElapsedMode timeElapsed correctChars : Int),
      Word.updateWPM mode timeElapsedMode timeElapsed correctChars
        = wpmSpec correctChars
            ((elapsedSeconds mode timeElapsedMode timeElapsed : Int) / 60 : Rat)) ∧
    (∀ (mode : Mode) (timeElapsedMode timeElapsed correctChars : Int),
      Fmt.updateWPM mode timeElapsedMode timeElapsed correctChars
        = wpmSpec correctChars
            ((elapsedSeconds mode timeElapsedMode timeElapsed : Int) / 60 : Rat)) ∧
    Word.updateWPM Mode.words 15 60 250 = 50 ∧
    Fmt.updateWPM Mode.time 75 15 250 = 50 ∧
    Word.updateWPM Mode.words 15 0 250 = 0 := by
  have key : ∀ (secs c : Int),
      (if 0 < secs then jsRound (60 * c) (5 * secs) else 0)
        = wpmSpec c ((secs : Int) / 60 : Rat) := by
    intro secs c
    by_cases hs : 0 < secs
    · have hsq : (0 : Rat) < (secs : Rat) / 60 := by
        apply div_pos
        · exact_mod_cast hs
        · norm_num
      rw [if_pos hs, wpmSpec, if_pos hsq]
      have h0 : (secs : Rat) ≠ 0 := by
        exact_mod_cast hs.ne'
      have harg : (c : Rat) / 5 / ((secs : Rat) / 60)
          = ((60 * c : Int) : Rat) / ((5 * secs : Int) : Rat) := by
        push_cast
        field_simp
        ring
      rw [harg, jsRoundQ_div_eq _ _ (by omega)]
    · rw [if_neg hs, wpmSpec, if_neg]
      intro hq
      apply hs
      rcases div_pos_iff.mp hq with ⟨ha, _⟩ | ⟨_, hb⟩
      · exact_mod_cast ha
      · norm_num at hb
  refine ⟨?_, ?_, by decide, by decide, by decide⟩
  · intro mode timeElapsedMode timeElapsed correctChars
    cases mode
    · exact key (elapsedSeconds Mode.words timeElapsedMode timeElapsed) correctChars
    · exact key (elapsedSeconds Mode.time timeElapsedMode timeElapsed) correctChars
  · intro mode timeElapsedMode timeElapsed correctChars
    cases mode
    · exact key (elapsedSeconds Mode.words timeElapsedMode timeElapsed) correctChars
    · exact key (elapsedSeconds Mode.time timeElapsedMode timeElapsed) correctChars

/-- C8: progress calculation.  (a) For `currentText = ["hello","world"]`,
`userInput = ["hello","wor"]`, `currentWordIndex = 1`, the result has
`correctChars = 8`, `totalChars = 10`, `progressPercentage = 80.0`
(`800` tenths) and status `high`, with one word completed out of two.
(b) In general the percentage is `round1(correctChars/totalChars*100)`
(`0` when `totalChars = 0`).  (c) The computed status is exactly
`getProgressStatus` of the computed percentage.  (d) The buckets on a
percentage `p ≤ 100` are: `< 25` start, `< 50` low, `< 75` medium,
`< 100` high, and exactly `100` complete (thresholds in tenths). -/
theorem claim8_progress_calculation :
    ((Progress.calculateTypingProgress
        [['h','e','l','l','o'], ['w','o','r','l','d']]
        [['h','e','l','l','o'], ['w','o','r']] 1).correctChars = 8 ∧
     (Progress.calculateTypingProgress
        [['h','e','l','l','o'], ['w','o','r','l','d']]
        [['h','e','l','l','o'], ['w','o','r']] 1).totalChars = 10 ∧
     (Progress.calculateTypingProgress
        [['h','e','l','l','o'], ['w','o','r','l','d']]
        [['h','e','l','l','o'], ['w','o','r']] 1).progressPct10 = 800 ∧
     (Progress.calculateTypingProgress
        [['h','e','l','l','o'], ['w','o','r','l','d']]
        [['h','e','l','l','o'], ['w','o','r']] 1).status
          = Progress.Status.high ∧
     (Progress.calculateTypingProgress
        [['h','e','l','l','o'], ['w','o','r','l','d']]
        [['h','e','l','l','o'], ['w','o','r']] 1).wordsCompleted = 1 ∧
     (Progress.calculateTypingProgress
        [['h','e','l','l','o'], ['w','o','r','l','d']]
        [['h','e','l','l','o'], ['w','o','r']] 1).totalWords = 2) ∧
    (∀ (currentText userInput : List (List Char)) (currentWordIndex : Nat),
      (Progress.calculateTypingProgress currentText userInput
          currentWordIndex).progressPct10
        = (if (Progress.calculateTypingProgress currentText userInput
                currentWordIndex).totalChars = 0 then 0
           else jsRoundNat
             ((Progress.calculateTypingProgress currentText userInput
                 currentWordIndex).correctChars * 1000)
             ((Progress.calculateTypingProgress currentText userInput
                 currentWordIndex).totalChars))) ∧
    (∀ (currentText userInput : List (List Char)) (currentWordIndex : Nat),
      (Progress.calculateTypingProgress currentText userInput
          currentWordIndex).status
        = Progress.getProgressStatus
            ((Progress.calculateTypingProgress currentText userInput
                currentWordIndex).progressPct10)) ∧
    (∀ p : Nat, p ≤ 1000 →
      ((p < 250 → Progress.getProgressStatus p = Progress.Status.start) ∧
       (250 ≤ p → p < 500 → Progress.getProgressStatus p = Progress.Status.low) ∧
       (500 ≤ p → p < 750 →
          Progress.getProgressStatus p = Progress.Status.medium) ∧
       (750 ≤ p → p < 1000 →
          Progress.getProgressStatus p = Progress.Status.high) ∧
       (p = 1000 → Progress.getProgressStatus p = Progress.Status.complete))) := by
  refine ⟨by decide, ?_, ?_, ?_⟩
  · intro currentText userInput currentWordIndex
    by_cases h : currentText.length = 0
    · simp [Progress.calculateTypingProgress, h]
    · simp only [Progress.calculateTypingProgress, h, if_false]
      rcases Nat.eq_zero_or_pos (currentText.map List.length).sum with hT | hT
      · simp [hT]
      · simp [hT, Nat.pos_iff_ne_zero.mp hT]
  · intro currentText userInput currentWordIndex
    by_cases h : currentText.length = 0
    · simp [Progress.calculateTypingProgress, h, Progress.getProgressStatus]
    · simp [Progress.calculateTypingProgress, h, Progress.getProgressStatus]
  · intro p hp
    refine ⟨fun h1 => ?_, fun h1 h2 => ?_, fun h1 h2 => ?_, fun h1 h2 => ?_,
        fun h1 => ?_⟩ <;>
      (unfold Progress.getProgressStatus
       split_ifs <;> first | rfl | (exfalso; omega))

/-- C8 witness: the bucket clause applied at the concrete percentage
`80.0` (tenths `800`), which the theorem's scenario computes. -/
theorem claim8_progress_calculation_witness :
    800 ≤ 1000 ∧ 750 ≤ 800 ∧ 800 < 1000 ∧
      Progress.getProgressStatus 800 = Progress.Status.high :=
  ⟨by decide, by decide, by decide,
    (claim8_progress_calculation.2.2.2 800 (by decide)).2.2.2.1
      (by decide) (by decide)⟩

/-- The four observables whose restoration the backspace round-trip
property asserts (word engine): user input, total count, correct count,
cursor. -/
def Word.restoredView (s : Word.GameState) :
    List (List Char) × Int × Int × Nat :=
  (s.userInput, s.totalChars, s.correctChars, s.currentWordIndex)

/-- The same observables for the formatted engine. -/
def Fmt.restoredView (s : Fmt.FormattedGameState) :
    List Char × Int × Int × Nat :=
  (s.userInput, s.totalChars, s.correctChars, s.currentCharIndex)

/-- Word-engine round trip: a non-space character insert that leaves the
session playing is exactly undone by one backspace (for a cursor within
the input list, as every initialized session has). -/
theorem word_insert_backspace_roundtrip
    (s : Word.GameState) (c : Char)
    (hplay : s.isPlaying = true)
    (hc : c ≠ ' ')
    (hidx : s.currentWordIndex < s.userInput.length)
    (hnf : (Word.onHandleUserInputKeyDown (Key.ch c) s).isPlaying = true) :
    Word.restoredView (Word.onHandleUserInputKeyDown Key.backspace
        (Word.onHandleUserInputKeyDown (Key.ch c) s))
      = Word.restoredView s := by
  have hins : Word.onHandleUserInputKeyDown (Key.ch c) s
      = Word.updateAccuracyState (Word.insertChar c s) := by
    simp [Word.onHandleUserInputKeyDown, hplay, hc]
  rw [hins] at hnf ⊢
  have hgetD : wordAt (s.userInput.set s.currentWordIndex
      (wordAt s.userInput s.currentWordIndex ++ [c])) s.currentWordIndex
      = wordAt s.userInput s.currentWordIndex ++ [c] :=
    wordAt_set_self _ _ _ hidx
  have hrestore : (s.userInput.set s.currentWordIndex
      (wordAt s.userInput s.currentWordIndex ++ [c])).set s.currentWordIndex
      (wordAt s.userInput s.currentWordIndex)
      = s.userInput := by
    rw [List.set_set]
    exact set_wordAt_self _ _ hidx
  simp only [Word.insertChar] at hnf ⊢
  split_ifs at hnf ⊢ with h1 h2 h3
  · exfalso
    simp [Word.updateAccuracyState, Word.stopGame] at hnf
  · simp only [List.length_append, List.length_singleton,
      Nat.add_sub_cancel] at h1
    simp [Word.onHandleUserInputKeyDown, Word.backspaceKey,
      Word.updateAccuracyState, hplay, hgetD, hrestore, Word.restoredView,
      List.getLast?_concat, List.dropLast_concat]
    simp [if_pos h1.2]
  · exfalso
    simp [Word.updateAccuracyState, Word.stopGame] at hnf
  · have hcond : ¬(some c = charAt (wordAt s.currentText s.currentWordIndex)
        (wordAt s.userInput s.currentWordIndex).length) := by
      intro heq
      apply h1
      have hlt := lt_of_charAt_eq_some heq.symm
      constructor
      · simp only [List.length_append, List.length_singleton]
        omega
      · simp only [List.length_append, List.length_singleton,
          Nat.add_sub_cancel]
        exact heq
    simp [Word.onHandleUserInputKeyDown, Word.backspaceKey,
      Word.updateAccuracyState, hplay, hgetD, hrestore, Word.restoredView,
      List.getLast?_concat, List.dropLast_concat]
    simp [if_neg hcond]

/-- Formatted-engine round trip: a single-character insert that leaves
the session playing is exactly undone by one backspace, provided the
keystroke is not a space that lands the cursor on a tab target position
(`hnext`) and not a space typed over a tab that already has four or more
trailing spaces (`hover`) — the cases the backspace analysis cannot
reverse. -/
theorem fmt_insert_backspace_roundtrip
    (s : Fmt.FormattedGameState) (c : Char)
    (hplay : s.isPlaying = true)
    (htot : 0 ≤ s.totalChars)
    (hcor : 0 ≤ s.correctChars)
    (hnf : (Fmt.onHandleUserInputKeyDown (Key.ch c) s).isPlaying = true)
    (hnext : ¬(c = ' ' ∧
        (Fmt.onHandleUserInputKeyDown (Key.ch c) s).currentCharIndex
          = s.currentCharIndex + 1 ∧
        charAt s.currentText (s.currentCharIndex + 1) = some '\t'))
    (hover : ¬(c = ' ' ∧ charAt s.currentText s.currentCharIndex = some '\t' ∧
        4 ≤ Fmt.countTrailingSpaces s.userInput)) :
    Fmt.restoredView (Fmt.onHandleUserInputKeyDown Key.backspace
        (Fmt.onHandleUserInputKeyDown (Key.ch c) s))
      = Fmt.restoredView s := by
  have hins : Fmt.onHandleUserInputKeyDown (Key.ch c) s
      = Fmt.updateAccuracyState (Fmt.handleCharacterInput c s) := by
    simp [Fmt.onHandleUserInputKeyDown, hplay]
  rw [hins] at hnf hnext ⊢
  have hmax_t : max 0 s.totalChars = s.totalChars := max_eq_right htot
  have hmax_c : max 0 s.correctChars = s.correctChars := max_eq_right hcor
  by_cases hsp : c = ' '
  · subst hsp
    by_cases hA : some ' ' = charAt s.currentText s.currentCharIndex
    · -- direct space match: advance, counted correct
      simp [Fmt.handleCharacterInput, Fmt.updateAccuracyState, hA.symm]
        at hnf hnext ⊢
      split_ifs at hnf hnext ⊢ with hstop
      · exfalso
        simp [Fmt.stopGame] at hnf
      · have hnext' : ¬ charAt s.currentText (s.currentCharIndex + 1)
            = some '\t' := hnext rfl
        simp [Fmt.onHandleUserInputKeyDown, Fmt.handleBackspace,
          Fmt.updateAccuracyState, Fmt.restoredView, hplay,
          List.getLast?_concat, List.dropLast_concat, hmax_t, hmax_c,
          hA.symm, hnext']
    · by_cases hB : charAt s.currentText s.currentCharIndex = some '\t'
      · rcases Nat.lt_trichotomy
            (Fmt.countTrailingSpaces (s.userInput ++ [' '])) 4 with hlt | heq | hgt
        · -- filling a tab, fewer than 4 trailing spaces: correct, no advance
          simp [Fmt.handleCharacterInput, Fmt.updateAccuracyState, hA, hB,
            hlt, Nat.ne_of_lt hlt] at hnf ⊢
          split_ifs at hnf ⊢ with hstop
          · exfalso
            simp [Fmt.stopGame] at hnf
          · simp [Fmt.onHandleUserInputKeyDown, Fmt.handleBackspace,
              Fmt.updateAccuracyState, Fmt.restoredView, hplay,
              List.getLast?_concat, List.dropLast_concat, hmax_t, hmax_c, hB]
        · -- the 4th trailing space completes the tab: correct, advance
          have hcount : Fmt.countTrailingSpaces s.userInput = 3 := by
            rw [Fmt.countTrailingSpaces_concat] at heq
            simp at heq
            omega
          simp [Fmt.handleCharacterInput, Fmt.updateAccuracyState, hA, hB,
            heq] at hnf hnext ⊢
          split_ifs at hnf hnext ⊢ with hstop
          · exfalso
            simp [Fmt.stopGame] at hnf
          · have hnext' : ¬ charAt s.currentText (s.currentCharIndex + 1)
                = some '\t' := hnext rfl
            simp [Fmt.onHandleUserInputKeyDown, Fmt.handleBackspace,
              Fmt.updateAccuracyState, Fmt.restoredView, hplay,
              List.getLast?_concat, List.dropLast_concat, hmax_t, hmax_c,
              hB, hcount, hnext']
        · -- more than 4 trailing spaces over a tab: excluded by `hover`
          exfalso
          apply hover
          refine ⟨rfl, hB, ?_⟩
          rw [Fmt.countTrailingSpaces_concat] at hgt
          simp at hgt
          omega
      · -- space mismatch: advance, not correct
        simp [Fmt.handleCharacterInput, Fmt.updateAccuracyState, hA, hB]
          at hnf hnext ⊢
        split_ifs at hnf hnext ⊢ with hstop
        · exfalso
          simp [Fmt.stopGame] at hnf
        · have hnext' : ¬ charAt s.currentText (s.currentCharIndex + 1)
              = some '\t' := hnext rfl
          simp [Fmt.onHandleUserInputKeyDown, Fmt.handleBackspace,
            Fmt.updateAccuracyState, Fmt.restoredView, hplay,
            List.getLast?_concat, List.dropLast_concat, hmax_t, hmax_c,
            hA, hB, hnext']
  · by_cases hA : some c = charAt s.currentText s.currentCharIndex
    · -- direct non-space match: advance, counted correct
      simp [Fmt.handleCharacterInput, Fmt.updateAccuracyState, hA.symm, hsp]
        at hnf ⊢
      split_ifs at hnf ⊢ with hstop
      · exfalso
        simp [Fmt.stopGame] at hnf
      · simp [Fmt.onHandleUserInputKeyDown, Fmt.handleBackspace,
          Fmt.updateAccuracyState, Fmt.restoredView, hplay,
          List.getLast?_concat, List.dropLast_concat, hmax_t, hmax_c,
          hA.symm, hsp]
    · -- non-space mismatch: advance, not correct
      simp [Fmt.handleCharacterInput, Fmt.updateAccuracyState, hA, hsp]
        at hnf ⊢
      split_ifs at hnf ⊢ with hstop
      · exfalso
        simp [Fmt.stopGame] at hnf
      · simp [Fmt.onHandleUserInputKeyDown, Fmt.handleBackspace,
          Fmt.updateAccuracyState, Fmt.restoredView, hplay,
          List.getLast?_concat, List.dropLast_concat, hmax_t, hmax_c,
          hA, hsp]

/-- C3 counterexample: the claim asserts insert-then-backspace restores
`userInput`, `totalChars`, `correctChars`, `cursor` for every key event,
including Tab.  In the formatted engine, a Tab press over an expected tab
writes four spaces; one backspace removes only one of them: from the
fresh playing state on target `"\t"`+`"a"` (counts 0, empty input), the
pair Tab, Backspace leaves `totalChars = 3` and `userInput` holding three
spaces. -/
theorem claim3_counterexample_tab_not_reversed :
    (Fmt.startGame (Fmt.initGame ['\t', 'a'] Mode.words 15)).isPlaying = true ∧
    (Fmt.startGame (Fmt.initGame ['\t', 'a'] Mode.words 15)).totalChars = 0 ∧
    (Fmt.startGame (Fmt.initGame ['\t', 'a'] Mode.words 15)).userInput = [] ∧
    (Fmt.onHandleUserInputKeyDown Key.backspace
      (Fmt.onHandleUserInputKeyDown Key.tab
        (Fmt.startGame (Fmt.initGame ['\t', 'a'] Mode.words 15)))).totalChars
      = 3 ∧
    (Fmt.onHandleUserInputKeyDown Key.backspace
      (Fmt.onHandleUserInputKeyDown Key.tab
        (Fmt.startGame (Fmt.initGame ['\t', 'a'] Mode.words 15)))).userInput
      = [' ', ' ', ' '] := by
  decide

/-- C3 (amended): insert-then-backspace restores `userInput`,
`totalChars`, `correctChars` and the cursor for every single-character
key event `c` (including `'\t'` and `'\n'` as characters) that leaves
the session playing — in the word engine for every non-space `c` with
the cursor inside the input list; in the formatted engine (with
non-negative counts) additionally excluding a space whose insert lands
the cursor on a target tab, and a space typed over a tab that already
carries four or more trailing spaces.  The Tab *keypress* (a four-space
expansion) is not restored by one backspace, as the counterexample
shows. -/
theorem claim3_amended_backspace_roundtrip :
    (∀ (s : Word.GameState) (c : Char),
      s.isPlaying = true → c ≠ ' ' →
      s.currentWordIndex < s.userInput.length →
      (Word.onHandleUserInputKeyDown (Key.ch c) s).isPlaying = true →
      Word.restoredView (Word.onHandleUserInputKeyDown Key.backspace
          (Word.onHandleUserInputKeyDown (Key.ch c) s))
        = Word.restoredView s) ∧
    (∀ (s : Fmt.FormattedGameState) (c : Char),
      s.isPlaying = true → 0 ≤ s.totalChars → 0 ≤ s.correctChars →
      (Fmt.onHandleUserInputKeyDown (Key.ch c) s).isPlaying = true →
      ¬(c = ' ' ∧
          (Fmt.onHandleUserInputKeyDown (Key.ch c) s).currentCharIndex
            = s.currentCharIndex + 1 ∧
          charAt s.currentText (s.currentCharIndex + 1) = some '\t') →
      ¬(c = ' ' ∧ charAt s.currentText s.currentCharIndex = some '\t' ∧
          4 ≤ Fmt.countTrailingSpaces s.userInput) →
      Fmt.restoredView (Fmt.onHandleUserInputKeyDown Key.backspace
          (Fmt.onHandleUserInputKeyDown (Key.ch c) s))
        = Fmt.restoredView s) :=
  ⟨word_insert_backspace_roundtrip, fmt_insert_backspace_roundtrip⟩

/-- C3 amended witness: concrete round trips — the word engine on target
`"ab"` inserting `'a'`, and the formatted engine on target `"\n"`+`"b"`
inserting `'\n'` (the Enter character). -/
theorem claim3_amended_backspace_roundtrip_witness :
    (Word.onHandleUserInputKeyDown (Key.ch 'a')
        { currentText := [['a', 'b']], currentWordIndex := 0,
          userInput := [[]], accuracy := 100, wpm := 0,
          correctChars := 0, totalChars := 0, timeElapsed := 0,
          timeElapsedMode := 15, mode := Mode.words, isPlaying := true,
          isFinish := false, isPending := false }).isPlaying = true ∧
    Word.restoredView (Word.onHandleUserInputKeyDown Key.backspace
        (Word.onHandleUserInputKeyDown (Key.ch 'a')
          { currentText := [['a', 'b']], currentWordIndex := 0,
            userInput := [[]], accuracy := 100, wpm := 0,
            correctChars := 0, totalChars := 0, timeElapsed := 0,
            timeElapsedMode := 15, mode := Mode.words, isPlaying := true,
            isFinish := false, isPending := false }))
      = Word.restoredView
          { currentText := [['a', 'b']], currentWordIndex := 0,
            userInput := [[]], accuracy := 100, wpm := 0,
            correctChars := 0, totalChars := 0, timeElapsed := 0,
            timeElapsedMode := 15, mode := Mode.words, isPlaying := true,
            isFinish := false, isPending := false } ∧
    Fmt.restoredView (Fmt.onHandleUserInputKeyDown Key.backspace
        (Fmt.onHandleUserInputKeyDown (Key.ch '\n')
          { currentText := ['\n', 'b'], currentCharIndex := 0,
            userInput := [], accuracy := 100, wpm := 0, correctChars := 0,
            totalChars := 0, timeElapsed := 15, timeElapsedMode := 15,
            mode := Mode.words, isPlaying := true, isFinish := false,
            isPending := false }))
      = Fmt.restoredView
          { currentText := ['\n', 'b'], currentCharIndex := 0,
            userInput := [], accuracy := 100, wpm := 0, correctChars := 0,
            totalChars := 0, timeElapsed := 15, timeElapsedMode := 15,
            mode := Mode.words, isPlaying := true, isFinish := false,
            isPending := false } :=
  ⟨by decide,
   claim3_amended_backspace_roundtrip.1 _ 'a' (by decide) (by decide)
     (by decide) (by decide),
   claim3_amended_backspace_roundtrip.2 _ '\n' (by decide) (by decide)
     (by decide) (by decide) (by decide) (by decide)⟩

end TypingNinja
